import Mathlib

/-!
Verification development for `child_windows_viewer` (`src/main.rs`).

The program is a terminal viewer of OS top-level windows and the children of
the selected window.  This file gives a shallow embedding of its pure core:

* `Window` embeds the Rust struct `Window` (class name, title text, handle,
  owning thread/process id); the two opaque OS values are modelled as `Nat`.
* `StatefulList` embeds `StatefulList<T>`; the `tui::ListState` field is kept
  as its selection component (`ListState::selected() : Option<usize>`), the
  `Vec<T>` as a `List T`.
* Rust `usize` arithmetic is modelled on `Nat` with checked subtraction:
  an expression such as `items.len() - 1` that underflows is a Rust panic,
  so every operation that can reach such an expression (or an out-of-bounds
  `Vec` index) returns an `Option`, `none` meaning the call panics.
* The OS enumeration callbacks (`EnumWindows`, `EnumChildWindows`,
  `EnumThreadWindows`) only accumulate descriptors; the raw accumulated
  sequence is passed to the embedded functions as an explicit argument, and
  the child/thread query `enum_child_windows` is abstracted as a function
  argument `rel : Window → List Window`.
* The event loop `run_app` is embedded as `stepIter` (one loop iteration:
  key handling, then the periodic-tick branch) driven by an explicit list of
  per-iteration inputs, and `renderTrace` records the application state at
  each `terminal.draw` call, i.e. at the top of each iteration.
-/

namespace ChildWindowsViewer

/-- Embeds the Rust struct `Window` (src/main.rs:193-199).  `HWND` and the
thread id `u32` are opaque identifiers here, modelled as `Nat`. -/
structure Window where
  class_name : String
  window_text : String
  handle : Nat
  process_id : Nat
deriving DecidableEq

/-- Embeds `StatefulList<T>` (src/main.rs:53-56).  Of the rendering state
`ListState` only the selection component is semantically relevant
(`ListState::selected`), kept here as `selected : Option Nat`. -/
structure StatefulList (T : Type) where
  selected : Option Nat
  vec : List T
deriving DecidableEq

namespace StatefulList

/-- Embeds `StatefulList::update` (src/main.rs:59-64):
`if self.state.selected().map(|selected| selected > items.len()).unwrap_or_default()
{ self.state.select(Some(items.len() - 1)); } self.vec = items;`.
When the clamp branch is taken with `items` empty, `items.len() - 1`
underflows `usize`: that panic is the `none` result. -/
def update {T : Type} (l : StatefulList T) (items : List T) : Option (StatefulList T) :=
  match l.selected with
  | some k =>
    if k > items.length then
      if items.length = 0 then none
      else some ⟨some (items.length - 1), items⟩
    else some ⟨some k, items⟩
  | none => some ⟨none, items⟩

/-- Embeds `StatefulList::next` (src/main.rs:65-72).  With a held selection the
code compares `i >= self.vec.len() - 1`; on an empty `vec` the subtraction
underflows (panic, modelled `none`). With no selection it selects index 0
without touching `vec`. -/
def next {T : Type} (l : StatefulList T) : Option (StatefulList T) :=
  match l.selected with
  | some i =>
    if l.vec.length = 0 then none
    else some ⟨some (if i ≥ l.vec.length - 1 then 0 else i + 1), l.vec⟩
  | none => some ⟨some 0, l.vec⟩

/-- Embeds `StatefulList::previous` (src/main.rs:74-81).  With selection 0 the
code computes `self.vec.len() - 1`, underflowing on an empty `vec`. -/
def previous {T : Type} (l : StatefulList T) : Option (StatefulList T) :=
  match l.selected with
  | some i =>
    if i = 0 then
      if l.vec.length = 0 then none
      else some ⟨some (l.vec.length - 1), l.vec⟩
    else some ⟨some (i - 1), l.vec⟩
  | none => some ⟨some 0, l.vec⟩

/-- Embeds `impl From<Vec<T>> for StatefulList<T>` (src/main.rs:86-99):
selection `Some(0)` iff the initial vector is non-empty. -/
def fromList {T : Type} (vec : List T) : StatefulList T :=
  ⟨if vec.isEmpty then none else some 0, vec⟩

/-- Embeds `StatefulList::selected_item` (src/main.rs:83):
`self.selected().map(|i| &self.vec[i])`.  The indexing `self.vec[i]` panics
when the held index is out of bounds, so the result is doubly optional:
outer `none` = panic, `some none` = no selection. -/
def selectedItem {T : Type} (l : StatefulList T) : Option (Option T) :=
  match l.selected with
  | none => some none
  | some i =>
    match l.vec.get? i with
    | some x => some (some x)
    | none => none

end StatefulList

/-- The mutation entry points of `StatefulList`, for stating properties about
arbitrary operation sequences. -/
inductive Op (T : Type) where
  | update : List T → Op T
  | next : Op T
  | previous : Op T

/-- Apply one `StatefulList` operation; `none` is a panic. -/
def applyOp {T : Type} (l : StatefulList T) : Op T → Option (StatefulList T)
  | Op.update items => l.update items
  | Op.next => l.next
  | Op.previous => l.previous

/-- Run a sequence of `StatefulList` operations left to right, stopping with
`none` as soon as one panics. -/
def runOps {T : Type} (l : StatefulList T) : List (Op T) → Option (StatefulList T)
  | [] => some l
  | op :: ops => (applyOp l op).bind (fun l2 => runOps l2 ops)

/-- Embeds Rust `str::starts_with(&str)` on the `String` model: the argument
is a character-sequence prefix of the receiver. -/
def strStartsWith (s p : String) : Bool :=
  p.data.isPrefixOf s.data

/-- Embeds the filter closure inside `enum_windows` (src/main.rs:209-216):
the match with guards, tested in source order. -/
def keepWindow (w : Window) : Bool :=
  if w.class_name.isEmpty then false
  else if strStartsWith w.class_name "IME" then false
  else if strStartsWith w.class_name "MSCTFIME UI" then false
  else if strStartsWith w.class_name "WindowsForms10" then false
  else if w.window_text.isEmpty then false
  else true

/-- Embeds `enum_windows` (src/main.rs:201-218) with the raw OS enumeration
(the callback-accumulated vector, in OS enumeration order) made an explicit
argument: the function filters it with `keepWindow`. -/
def enum_windows (raw : List Window) : List Window :=
  raw.filter keepWindow

/-- Modelled from the spec's words (the drop condition of claim C3), for
comparison against the source-side `keepWindow`: a descriptor is dropped iff
its class name is empty, or its title text is empty, or its class name begins
with one of the three designated noise markers. -/
def droppedSpec (w : Window) : Prop :=
  w.class_name = "" ∨ w.window_text = "" ∨
  "IME".data <+: w.class_name.data ∨
  "MSCTFIME UI".data <+: w.class_name.data ∨
  "WindowsForms10".data <+: w.class_name.data

instance (w : Window) : Decidable (droppedSpec w) := by
  unfold droppedSpec; infer_instance

/-- Embeds `AppState` (src/main.rs:34-37). -/
structure AppState where
  windows : StatefulList Window
  children : StatefulList Window
deriving DecidableEq

/-- Embeds `AppState::select_children` (src/main.rs:46-50):
`if let Some(selected) = self.windows.selected_item()
{ self.children.update(enum_child_windows(selected)); }` — note there is no
else branch.  The OS query `enum_child_windows` is the argument `rel`.
`none` is a panic (out-of-bounds `selected_item`, or `update` underflow). -/
def AppState.selectChildren (st : AppState) (rel : Window → List Window) : Option AppState :=
  match st.windows.selectedItem with
  | none => none
  | some none => some st
  | some (some w) => (st.children.update (rel w)).map (fun c => AppState.mk st.windows c)

/-- Embeds `AppState::new` (src/main.rs:40-45): the top pane from the filtered
enumeration, the children pane from an empty vector.  `raw` is the raw OS
top-level enumeration at startup. -/
def initState (raw : List Window) : AppState :=
  AppState.mk (StatefulList.fromList (enum_windows raw)) (StatefulList.fromList [])

/-- The key events `run_app` distinguishes (src/main.rs:118-134). -/
inductive Key where
  | ctrlC : Key
  | q : Key
  | up : Key
  | down : Key
  | r : Key
  | other : Key
deriving DecidableEq

/-- The nondeterministic inputs of one `run_app` loop iteration: the key event
delivered by `poll`/`read` (if any), the raw OS top-level enumeration the
`r` key would read at this moment, and whether the periodic tick interval
has elapsed at the tick check (src/main.rs:138). -/
structure IterInput where
  key : Option Key
  newRaw : List Window
  tick : Bool

/-- Embeds the key-handling match of the `run_app` loop body
(src/main.rs:114-136).  The result is `none` for a panic, `some none` for
`break` (quit), `some (some st)` to continue with the new state. -/
def stepKey (rel : Window → List Window) (st : AppState) (inp : IterInput) :
    Option (Option AppState) :=
  match inp.key with
  | none => some (some st)
  | some Key.ctrlC => some none
  | some Key.q => some none
  | some Key.up =>
    match st.windows.previous with
    | none => none
    | some wnav => ((AppState.mk wnav st.children).selectChildren rel).map some
  | some Key.down =>
    match st.windows.next with
    | none => none
    | some wnav => ((AppState.mk wnav st.children).selectChildren rel).map some
  | some Key.r =>
    match st.windows.update (enum_windows inp.newRaw) with
    | none => none
    | some wnew => ((AppState.mk wnew st.children).selectChildren rel).map some
  | some Key.other => some (some st)

/-- Embeds one iteration of the `run_app` loop body after the draw
(src/main.rs:110-141): key handling, then the periodic-tick branch
(`if last_tick.elapsed() >= RATE { ...; app_state.select_children(); }`). -/
def stepIter (rel : Window → List Window) (st : AppState) (inp : IterInput) :
    Option (Option AppState) :=
  match stepKey rel st inp with
  | none => none
  | some none => some none
  | some (some st1) =>
    if inp.tick then (st1.selectChildren rel).map some else some (some st1)

/-- The sequence of application states passed to `terminal.draw`
(src/main.rs:108), one at the top of each loop iteration, when the loop is
driven by the given per-iteration inputs.  `none` is a panic during some
iteration; a quit key ends the trace after that iteration's draw. -/
def renderTrace (rel : Window → List Window) (st : AppState) :
    List IterInput → Option (List AppState)
  | [] => some []
  | inp :: rest =>
    match stepIter rel st inp with
    | none => none
    | some none => some [st]
    | some (some st2) => (renderTrace rel st2 rest).map (fun tr => st :: tr)

/-! ### Equation lemmas for the embedded operations -/

theorem update_of_none {T : Type} (l : StatefulList T) (items : List T)
    (h : l.selected = none) : l.update items = some ⟨none, items⟩ := by
  unfold StatefulList.update; rw [h]

theorem update_of_some {T : Type} (l : StatefulList T) (items : List T) (k : Nat)
    (h : l.selected = some k) :
    l.update items =
      if k > items.length then
        if items.length = 0 then none
        else some ⟨some (items.length - 1), items⟩
      else some ⟨some k, items⟩ := by
  unfold StatefulList.update; rw [h]

theorem next_of_none {T : Type} (l : StatefulList T) (h : l.selected = none) :
    l.next = some ⟨some 0, l.vec⟩ := by
  unfold StatefulList.next; rw [h]

theorem next_of_some {T : Type} (l : StatefulList T) (i : Nat) (h : l.selected = some i) :
    l.next =
      if l.vec.length = 0 then none
      else some ⟨some (if i ≥ l.vec.length - 1 then 0 else i + 1), l.vec⟩ := by
  unfold StatefulList.next; rw [h]

theorem previous_of_none {T : Type} (l : StatefulList T) (h : l.selected = none) :
    l.previous = some ⟨some 0, l.vec⟩ := by
  unfold StatefulList.previous; rw [h]

theorem previous_of_some {T : Type} (l : StatefulList T) (i : Nat) (h : l.selected = some i) :
    l.previous =
      if i = 0 then
        if l.vec.length = 0 then none
        else some ⟨some (l.vec.length - 1), l.vec⟩
      else some ⟨some (i - 1), l.vec⟩ := by
  unfold StatefulList.previous; rw [h]

theorem selectChildren_of_panic (st : AppState) (rel : Window → List Window)
    (h : st.windows.selectedItem = none) : st.selectChildren rel = none := by
  unfold AppState.selectChildren; rw [h]

theorem selectChildren_of_noSel (st : AppState) (rel : Window → List Window)
    (h : st.windows.selectedItem = some none) : st.selectChildren rel = some st := by
  unfold AppState.selectChildren; rw [h]

theorem selectChildren_of_sel (st : AppState) (rel : Window → List Window) (w : Window)
    (h : st.windows.selectedItem = some (some w)) :
    st.selectChildren rel =
      (st.children.update (rel w)).map (fun c => AppState.mk st.windows c) := by
  unfold AppState.selectChildren; rw [h]

/-! ### Helper lemmas -/

theorem update_vec {T : Type} {l c : StatefulList T} {items : List T}
    (h : l.update items = some c) : c.vec = items := by
  cases hsel : l.selected with
  | none => rw [update_of_none l items hsel] at h; injection h with h; subst h; rfl
  | some k =>
    rw [update_of_some l items k hsel] at h
    by_cases hk : k > items.length
    · rw [if_pos hk] at h
      by_cases h0 : items.length = 0
      · rw [if_pos h0] at h; cases h
      · rw [if_neg h0] at h; injection h with h; subst h; rfl
    · rw [if_neg hk] at h; injection h with h; subst h; rfl

theorem update_selected_of_none {T : Type} {l c : StatefulList T} {items : List T}
    (h : l.update items = some c) (hn : l.selected = none) : c.selected = none := by
  rw [update_of_none l items hn] at h
  injection h with h; subst h; rfl

theorem update_selected_keep {T : Type} {l c : StatefulList T} {items : List T} {k : Nat}
    (h : l.update items = some c) (hk : l.selected = some k) (hle : k ≤ items.length) :
    c.selected = some k := by
  rw [update_of_some l items k hk, if_neg (by omega)] at h
  injection h with h; subst h; rfl

theorem update_selected_clamp {T : Type} {l c : StatefulList T} {items : List T} {k : Nat}
    (h : l.update items = some c) (hk : l.selected = some k) (hgt : items.length < k) :
    c.selected = some (items.length - 1) ∧ 1 ≤ items.length := by
  rw [update_of_some l items k hk, if_pos (by omega)] at h
  by_cases h0 : items.length = 0
  · rw [if_pos h0] at h; cases h
  · rw [if_neg h0] at h; injection h with h; subst h; exact ⟨rfl, by omega⟩

theorem update_panics {T : Type} {l : StatefulList T} {k : Nat}
    (hk : l.selected = some k) (hpos : 1 ≤ k) : l.update ([] : List T) = none := by
  rw [update_of_some l [] k hk, if_pos (by simp; omega)]
  rfl

/-- Each `StatefulList` operation keeps the selection at most the length of
the current items (it can equal the length after `update`, because the clamp
comparison in the source is strict). -/
theorem applyOp_sel_le {T : Type} {l l2 : StatefulList T} {op : Op T}
    (hl : ∀ i, l.selected = some i → i ≤ l.vec.length)
    (h : applyOp l op = some l2) :
    ∀ i, l2.selected = some i → i ≤ l2.vec.length := by
  intro i hi
  cases op with
  | update items =>
    simp only [applyOp] at h
    cases hsel : l.selected with
    | none =>
      rw [update_of_none l items hsel] at h
      injection h with h; subst h; cases hi
    | some k =>
      rw [update_of_some l items k hsel] at h
      by_cases hk : k > items.length
      · rw [if_pos hk] at h
        by_cases h0 : items.length = 0
        · rw [if_pos h0] at h; cases h
        · rw [if_neg h0] at h; injection h with h; subst h
          dsimp only at hi ⊢
          injection hi with hi; omega
      · rw [if_neg hk] at h; injection h with h; subst h
        dsimp only at hi ⊢
        injection hi with hi; omega
  | next =>
    simp only [applyOp] at h
    cases hsel : l.selected with
    | none =>
      rw [next_of_none l hsel] at h
      injection h with h; subst h
      dsimp only at hi ⊢
      injection hi with hi; omega
    | some j =>
      rw [next_of_some l j hsel] at h
      by_cases h0 : l.vec.length = 0
      · rw [if_pos h0] at h; cases h
      · rw [if_neg h0] at h; injection h with h; subst h
        dsimp only at hi ⊢
        injection hi with hi
        by_cases hj : j ≥ l.vec.length - 1
        · rw [if_pos hj] at hi; omega
        · rw [if_neg hj] at hi; omega
  | previous =>
    simp only [applyOp] at h
    cases hsel : l.selected with
    | none =>
      rw [previous_of_none l hsel] at h
      injection h with h; subst h
      dsimp only at hi ⊢
      injection hi with hi; omega
    | some j =>
      rw [previous_of_some l j hsel] at h
      by_cases hj : j = 0
      · rw [if_pos hj] at h
        by_cases h0 : l.vec.length = 0
        · rw [if_pos h0] at h; cases h
        · rw [if_neg h0] at h; injection h with h; subst h
          dsimp only at hi ⊢
          injection hi with hi; omega
      · rw [if_neg hj] at h; injection h with h; subst h
        dsimp only at hi ⊢
        injection hi with hi
        have := hl j hsel
        omega

theorem runOps_sel_le {T : Type} (ops : List (Op T)) :
    ∀ l l2 : StatefulList T,
    (∀ i, l.selected = some i → i ≤ l.vec.length) →
    runOps l ops = some l2 →
    ∀ i, l2.selected = some i → i ≤ l2.vec.length := by
  induction ops with
  | nil =>
    intro l l2 hl h
    unfold runOps at h
    injection h with h; subst h; exact hl
  | cons op ops ih =>
    intro l l2 hl h
    unfold runOps at h
    cases hop : applyOp l op with
    | none => rw [hop] at h; cases h
    | some lmid =>
      rw [hop] at h
      simp only [Option.some_bind] at h
      exact ih lmid l2 (applyOp_sel_le hl hop) h

theorem fromList_sel_le {T : Type} (init : List T) :
    ∀ i, (StatefulList.fromList init).selected = some i →
      i ≤ (StatefulList.fromList init).vec.length := by
  intro i hi
  unfold StatefulList.fromList at hi ⊢
  cases init with
  | nil => cases hi
  | cons a as =>
    simp only [List.isEmpty_cons, if_neg] at hi
    injection hi with hi; omega

theorem selectChildren_windows {st st' : AppState} {rel : Window → List Window}
    (h : st.selectChildren rel = some st') : st'.windows = st.windows := by
  cases hsel : st.windows.selectedItem with
  | none => rw [selectChildren_of_panic st rel hsel] at h; cases h
  | some o =>
    cases o with
    | none =>
      rw [selectChildren_of_noSel st rel hsel] at h
      injection h with h; subst h; rfl
    | some w =>
      rw [selectChildren_of_sel st rel w hsel] at h
      cases hc : st.children.update (rel w) with
      | none => rw [hc] at h; cases h
      | some c =>
        rw [hc] at h
        simp only [Option.map_some'] at h
        injection h with h; subst h; rfl

theorem selectChildren_children {st st' : AppState} {rel : Window → List Window} {w : Window}
    (h : st.selectChildren rel = some st')
    (hsel : st.windows.selectedItem = some (some w)) :
    st.children.update (rel w) = some st'.children := by
  rw [selectChildren_of_sel st rel w hsel] at h
  cases hc : st.children.update (rel w) with
  | none => rw [hc] at h; cases h
  | some c =>
    rw [hc] at h
    simp only [Option.map_some'] at h
    injection h with h; subst h
    rfl

theorem selectChildren_vec {st st' : AppState} {rel : Window → List Window} {w : Window}
    (h : st.selectChildren rel = some st')
    (hsel : st.windows.selectedItem = some (some w)) :
    st'.children.vec = rel w :=
  update_vec (selectChildren_children h hsel)

theorem keepWindow_eq (w : Window) :
    keepWindow w =
      (!w.class_name.isEmpty && !strStartsWith w.class_name "IME" &&
        !strStartsWith w.class_name "MSCTFIME UI" &&
        !strStartsWith w.class_name "WindowsForms10" && !w.window_text.isEmpty) := by
  unfold keepWindow
  cases h1 : w.class_name.isEmpty <;>
    cases h2 : strStartsWith w.class_name "IME" <;>
      cases h3 : strStartsWith w.class_name "MSCTFIME UI" <;>
        cases h4 : strStartsWith w.class_name "WindowsForms10" <;>
          cases h5 : w.window_text.isEmpty <;> rfl

theorem keepWindow_iff (w : Window) : keepWindow w = true ↔ ¬ droppedSpec w := by
  rw [keepWindow_eq]
  simp only [Bool.and_eq_true, Bool.not_eq_true']
  constructor
  · rintro ⟨⟨⟨⟨e1, p1⟩, p2⟩, p3⟩, e2⟩ hd
    rcases hd with hA | hB | hC | hD | hE
    · have : w.class_name.isEmpty = true := (String.isEmpty_iff _).mpr hA
      rw [this] at e1; cases e1
    · have : w.window_text.isEmpty = true := (String.isEmpty_iff _).mpr hB
      rw [this] at e2; cases e2
    · have : strStartsWith w.class_name "IME" = true := by
        unfold strStartsWith; exact List.isPrefixOf_iff_prefix.mpr hC
      rw [this] at p1; cases p1
    · have : strStartsWith w.class_name "MSCTFIME UI" = true := by
        unfold strStartsWith; exact List.isPrefixOf_iff_prefix.mpr hD
      rw [this] at p2; cases p2
    · have : strStartsWith w.class_name "WindowsForms10" = true := by
        unfold strStartsWith; exact List.isPrefixOf_iff_prefix.mpr hE
      rw [this] at p3; cases p3
  · intro hn
    rw [droppedSpec, not_or, not_or, not_or, not_or] at hn
    obtain ⟨nA, nB, nC, nD, nE⟩ := hn
    refine ⟨⟨⟨⟨?_, ?_⟩, ?_⟩, ?_⟩, ?_⟩
    · cases he : w.class_name.isEmpty with
      | false => rfl
      | true => exact absurd ((String.isEmpty_iff _).mp he) nA
    · cases hp : strStartsWith w.class_name "IME" with
      | false => rfl
      | true =>
        unfold strStartsWith at hp
        exact absurd (List.isPrefixOf_iff_prefix.mp hp) nC
    · cases hp : strStartsWith w.class_name "MSCTFIME UI" with
      | false => rfl
      | true =>
        unfold strStartsWith at hp
        exact absurd (List.isPrefixOf_iff_prefix.mp hp) nD
    · cases hp : strStartsWith w.class_name "WindowsForms10" with
      | false => rfl
      | true =>
        unfold strStartsWith at hp
        exact absurd (List.isPrefixOf_iff_prefix.mp hp) nE
    · cases he : w.window_text.isEmpty with
      | false => rfl
      | true => exact absurd ((String.isEmpty_iff _).mp he) nB

/-! ### Concrete sample data for witnesses and counterexamples -/

/-- A window surviving the noise filter. -/
def wA : Window := ⟨"A", "x", 1, 1⟩

/-- A child query returning no related windows. -/
def relNil : Window → List Window := fun _ => []

/-- A child query returning exactly one related window. -/
def relA : Window → List Window := fun _ => [wA]

/-! ### Claims -/

/-- C1 counterexample: a list holding selection 1 (reachable, e.g. after
`next` on a two-element list), replaced with an empty sequence, is a case
with `k > new_len`; the code does not set the selection to `new_len - 1`,
it panics on the unsigned underflow of `items.len() - 1`. -/
theorem c1_counterexample :
    (StatefulList.mk (some 1) [5, 6]).update ([] : List Nat) = none := by decide

/-- C1 (amended): `update` on a list selecting `k` keeps the selection at `k`
whenever `k ≤ new_len` (including `k = new_len`); whenever `k > new_len` and
the new sequence is non-empty it clamps the selection to `new_len - 1`; and
whenever `k > new_len = 0` (a held selection, empty new sequence) it panics
instead of clamping. -/
theorem c1_update_clamp {T : Type} (l : StatefulList T) (k : Nat) (items : List T)
    (h : l.selected = some k) :
    (k ≤ items.length → l.update items = some ⟨some k, items⟩) ∧
    (items.length < k → 1 ≤ items.length →
      l.update items = some ⟨some (items.length - 1), items⟩) ∧
    (items.length < k → items.length = 0 → l.update items = none) := by
  refine ⟨fun hle => ?_, fun hgt hpos => ?_, fun hgt h0 => ?_⟩
  · rw [update_of_some l items k h, if_neg (by omega)]
  · rw [update_of_some l items k h, if_pos (by omega), if_neg (by omega)]
  · rw [update_of_some l items k h, if_pos (by omega), if_pos h0]

/-- Witness for C1: selection 3 against a new sequence of length 2 is clamped
to index 1. -/
theorem c1_update_clamp_witness :
    (StatefulList.mk (some 3) ([] : List Nat)).update [10, 20] =
      some ⟨some 1, [10, 20]⟩ :=
  (c1_update_clamp (StatefulList.mk (some 3) []) 3 [10, 20] rfl).2.1
    (by decide) (by decide)

/-- C2 counterexample: from the empty list (selection `None`), one `next`
yields a reachable state whose selection is `Some 0` while the item sequence
is empty — so `selected = None ↔ items = []` fails on reachable states. -/
theorem c2_counterexample :
    runOps (StatefulList.fromList ([] : List Nat)) [Op.next] =
        some (StatefulList.mk (some 0) []) ∧
    (StatefulList.mk (some 0) ([] : List Nat)).selected ≠ none := by
  refine ⟨by decide, by decide⟩

/-- C2 (amended): after any sequence of `fromList`/`update`/`next`/`previous`
that completes without a panic, a held selection index is at most the length
of the current items.  (It can equal the length — one past the end — because
the clamp in `update` uses a strict comparison; and `Some 0` can coexist
with an empty list, and `None` with a non-empty list, so the original
`None`-iff-empty and strict in-bounds invariants are false.) -/
theorem c2_reachable_sel_le {T : Type} (init : List T) (ops : List (Op T))
    (l2 : StatefulList T)
    (h : runOps (StatefulList.fromList init) ops = some l2) :
    ∀ i, l2.selected = some i → i ≤ l2.vec.length :=
  runOps_sel_le ops _ l2 (fromList_sel_le init) h

/-- Witness for C2 (amended): after `next` from `fromList [5, 7]` the
selection 1 is within length 2. -/
theorem c2_reachable_sel_le_witness :
    (1 : Nat) ≤ (StatefulList.mk (some 1) [5, 7]).vec.length :=
  c2_reachable_sel_le [5, 7] [Op.next] (StatefulList.mk (some 1) [5, 7])
    (by decide) 1 rfl

/-- C3: the filter of `enum_windows` keeps the survivors in enumeration order
(a sublist of the raw enumeration), and a descriptor survives iff it occurs in
the raw enumeration and is not dropped, where dropping — per the spec's
words, `droppedSpec` — means: empty class name, or empty title text, or class
name beginning with one of "IME", "MSCTFIME UI", "WindowsForms10". -/
theorem c3_filter_characterization (ws : List Window) :
    List.Sublist (enum_windows ws) ws ∧
    ∀ w : Window, w ∈ enum_windows ws ↔ (w ∈ ws ∧ ¬ droppedSpec w) := by
  refine ⟨List.filter_sublist ws, fun w => ?_⟩
  rw [enum_windows, List.mem_filter, keepWindow_iff]

/-- Witness for C3 at a concrete enumeration: the surviving descriptor is a
member and not dropped. -/
theorem c3_filter_characterization_witness :
    List.Sublist (enum_windows [wA]) [wA] ∧
    (wA ∈ enum_windows [wA] ↔ (wA ∈ [wA] ∧ ¬ droppedSpec wA)) :=
  ⟨(c3_filter_characterization [wA]).1, (c3_filter_characterization [wA]).2 wA⟩

/-- C5: the code evaluated at the failing input.  State `⟨Some 1, [0, 1]⟩` is
reachable (`fromList [0, 1]` then `next`); replacing with the empty sequence
then takes the clamp branch and `items.len() - 1` underflows: `update`
faults instead of completing silently. -/
theorem c5_update_empty_panics :
    runOps (StatefulList.fromList [0, 1]) [Op.next, Op.update []] = none := by
  decide

/-- C6: the code evaluated at the failing input.  On the empty list, one
`next` selects index 0 (reachable state with empty items); the second `next`
evaluates `self.vec.len() - 1` on length 0 and faults. -/
theorem c6_nav_empty_panics :
    runOps (StatefulList.fromList ([] : List Nat)) [Op.next, Op.next] = none := by
  decide

/-- C9: on a list of length ≥ 1 with a valid selected index, `next` then
`previous` (and `previous` then `next`) return to the original state;
`next` on the last index wraps to 0 and `previous` on index 0 wraps to
`len - 1`. -/
theorem c9_round_trip {T : Type} (l : StatefulList T) (i : Nat)
    (hsel : l.selected = some i) (hlt : i < l.vec.length) :
    l.next.bind StatefulList.previous = some l ∧
    l.previous.bind StatefulList.next = some l ∧
    (i = l.vec.length - 1 → l.next = some ⟨some 0, l.vec⟩) ∧
    (i = 0 → l.previous = some ⟨some (l.vec.length - 1), l.vec⟩) := by
  obtain ⟨sel, v⟩ := l
  dsimp only at hsel hlt ⊢
  subst hsel
  have hv : v.length ≠ 0 := by omega
  refine ⟨?_, ?_, fun hi => ?_, fun hi => ?_⟩
  · rw [next_of_some _ i rfl, if_neg hv]
    dsimp only [Option.some_bind]
    by_cases hi : i ≥ v.length - 1
    · rw [if_pos hi]
      rw [previous_of_some _ 0 rfl, if_pos rfl]
      dsimp only
      rw [if_neg hv]
      have : v.length - 1 = i := by omega
      rw [this]
    · rw [if_neg hi]
      rw [previous_of_some _ (i + 1) rfl, if_neg (by omega)]
      dsimp only
      rw [Nat.add_sub_cancel]
  · rw [previous_of_some _ i rfl]
    by_cases hi : i = 0
    · rw [if_pos hi]
      dsimp only
      rw [if_neg hv]
      dsimp only [Option.some_bind]
      rw [next_of_some _ (v.length - 1) rfl, if_neg hv]
      dsimp only
      rw [if_pos (by omega), hi]
    · rw [if_neg hi]
      dsimp only [Option.some_bind]
      rw [next_of_some _ (i - 1) rfl, if_neg hv]
      dsimp only
      rw [if_neg (by omega)]
      have : i - 1 + 1 = i := by omega
      rw [this]
  · rw [next_of_some _ i rfl, if_neg hv]
    dsimp only
    rw [if_pos (by omega)]
  · rw [previous_of_some _ i rfl, if_pos hi]
    dsimp only
    rw [if_neg hv]

/-- Witness for C9: `next` on the last index 2 of a three-element list wraps
to index 0. -/
theorem c9_round_trip_witness :
    (StatefulList.mk (some 2) [10, 20, 30]).next =
      some ⟨some 0, [10, 20, 30]⟩ :=
  (c9_round_trip (StatefulList.mk (some 2) [10, 20, 30]) 2 rfl (by decide)).2.2.1
    (by decide)

/-! ### Equation lemmas for the loop embedding -/

theorem renderTrace_cons (rel : Window → List Window) (st : AppState)
    (inp : IterInput) (rest : List IterInput) :
    renderTrace rel st (inp :: rest) =
      match stepIter rel st inp with
      | none => none
      | some none => some [st]
      | some (some st2) => (renderTrace rel st2 rest).map (fun tr => st :: tr) := rfl

theorem stepIter_eq (rel : Window → List Window) (st : AppState) (inp : IterInput) :
    stepIter rel st inp =
      match stepKey rel st inp with
      | none => none
      | some none => some none
      | some (some st1) =>
        if inp.tick then (st1.selectChildren rel).map some
        else some (some st1) := rfl

theorem stepKey_up (rel : Window → List Window) (st : AppState) (inp : IterInput)
    (h : inp.key = some Key.up) :
    stepKey rel st inp =
      match st.windows.previous with
      | none => none
      | some wnav => ((AppState.mk wnav st.children).selectChildren rel).map some := by
  unfold stepKey; rw [h]

theorem stepKey_down (rel : Window → List Window) (st : AppState) (inp : IterInput)
    (h : inp.key = some Key.down) :
    stepKey rel st inp =
      match st.windows.next with
      | none => none
      | some wnav => ((AppState.mk wnav st.children).selectChildren rel).map some := by
  unfold stepKey; rw [h]

/-- After a completed navigation key (`up` or `down`), the continuation state
of `stepKey` is the result of `selectChildren` on some intermediate state. -/
theorem stepKey_nav_selectChildren {rel : Window → List Window} {st st1 : AppState}
    {inp : IterInput}
    (hkey : inp.key = some Key.up ∨ inp.key = some Key.down)
    (h : stepKey rel st inp = some (some st1)) :
    ∃ stm : AppState, stm.selectChildren rel = some st1 := by
  rcases hkey with hk | hk
  · rw [stepKey_up rel st inp hk] at h
    split at h
    next => cases h
    next wnav heq =>
      cases hsc : (AppState.mk wnav st.children).selectChildren rel with
      | none => rw [hsc] at h; cases h
      | some stx =>
        rw [hsc] at h
        simp only [Option.map_some'] at h
        injection h with h; injection h with h; subst h
        exact ⟨_, hsc⟩
  · rw [stepKey_down rel st inp hk] at h
    split at h
    next => cases h
    next wnav heq =>
      cases hsc : (AppState.mk wnav st.children).selectChildren rel with
      | none => rw [hsc] at h; cases h
      | some stx =>
        rw [hsc] at h
        simp only [Option.map_some'] at h
        injection h with h; injection h with h; subst h
        exact ⟨_, hsc⟩

/-- A state produced by `selectChildren` shows, for its current selection,
exactly the child list the query returns for that selection. -/
theorem selectChildren_consistent {rel : Window → List Window} {stm st1 : AppState}
    (h : stm.selectChildren rel = some st1) :
    ∀ w : Window, st1.windows.selectedItem = some (some w) → st1.children.vec = rel w := by
  intro w hw
  rw [selectChildren_windows h] at hw
  exact selectChildren_vec h hw

/-! ### Claims (continued) -/

/-- C4 counterexample: `select_children` with no selection in the top list
does not replace the children list with an empty list — it leaves the state
unchanged (there is no else branch), here keeping a non-empty children
list. -/
theorem c4_counterexample :
    (AppState.mk (StatefulList.fromList [])
        (StatefulList.mk (some 0) [wA])).selectChildren relNil =
      some (AppState.mk (StatefulList.fromList [])
        (StatefulList.mk (some 0) [wA])) ∧
    (StatefulList.mk (some 0) [wA]).vec ≠ ([] : List Window) := by
  refine ⟨by decide, by decide⟩

/-- C4 (amended): when `top_windows` has no selection, `select_children`
returns the state unchanged (children keep their previous contents); when a
descriptor `w` is selected and the clamped replacement succeeds,
the children list is replaced (via `update`) with `list_related w`, and
`top_windows` is untouched. -/
theorem c4_selectChildren (rel : Window → List Window) (st : AppState) (w : Window)
    (c : StatefulList Window) :
    (st.windows.selectedItem = some none → st.selectChildren rel = some st) ∧
    (st.windows.selectedItem = some (some w) → st.children.update (rel w) = some c →
      st.selectChildren rel = some (AppState.mk st.windows c) ∧ c.vec = rel w) := by
  constructor
  · intro h; exact selectChildren_of_noSel st rel h
  · intro h hc
    refine ⟨?_, update_vec hc⟩
    rw [selectChildren_of_sel st rel w h, hc]
    rfl

/-- Witness for C4 (amended), no-selection branch: the state is returned
unchanged. -/
theorem c4_selectChildren_witness :
    (AppState.mk (StatefulList.fromList [])
        (StatefulList.mk none [wA])).selectChildren relNil =
      some (AppState.mk (StatefulList.fromList [])
        (StatefulList.mk none [wA])) :=
  (c4_selectChildren relNil
      (AppState.mk (StatefulList.fromList []) (StatefulList.mk none [wA]))
      wA (StatefulList.mk none [])).1 (by decide)

/-- C7 counterexample: with one surviving top-level window and a child query
returning a non-empty list, the first (and here only) rendered frame is the
freshly constructed state, whose children list is empty even though the
selected top-level window has a non-empty derived child list — no
`select_children` runs before the first draw. -/
theorem c7_counterexample :
    renderTrace relA (initState [wA]) [⟨none, [], false⟩] = some [initState [wA]] ∧
    (initState [wA]).children.vec = [] ∧
    (initState [wA]).windows.selectedItem = some (some wA) ∧
    relA wA ≠ [] := by
  refine ⟨by decide, by decide, by decide, by decide⟩

/-- C7 (amended): at loop start the state is constructed with the filtered
top-level enumeration and an empty, unselected children list, and the first
rendered frame is exactly this underived state: `select_children` does not
run before the first render (children are first derived at the first elapsed
tick or the first navigation/refresh key). -/
theorem c7_first_frame (raw : List Window) (rel : Window → List Window)
    (inp : IterInput) (rest : List IterInput) (tr : List AppState)
    (h : renderTrace rel (initState raw) (inp :: rest) = some tr) :
    tr.head? = some (initState raw) ∧
    (initState raw).windows = StatefulList.fromList (enum_windows raw) ∧
    (initState raw).children.vec = [] ∧
    (initState raw).children.selected = none := by
  refine ⟨?_, rfl, rfl, rfl⟩
  rw [renderTrace_cons] at h
  split at h
  next => cases h
  next => injection h with h; subst h; rfl
  next st2 heq =>
    cases hr : renderTrace rel st2 rest with
    | none => rw [hr] at h; cases h
    | some tr2 =>
      rw [hr] at h
      simp only [Option.map_some'] at h
      injection h with h; subst h; rfl

/-- Witness for C7 (amended) at a concrete run of one input-less iteration. -/
theorem c7_first_frame_witness :
    ([initState [wA]] : List AppState).head? = some (initState [wA]) ∧
    (initState [wA]).windows = StatefulList.fromList (enum_windows [wA]) ∧
    (initState [wA]).children.vec = [] ∧
    (initState [wA]).children.selected = none :=
  c7_first_frame [wA] relA ⟨none, [], false⟩ [] [initState [wA]] (by decide)

/-- C8: an iteration whose key event is Up or Down that completes with a
continuation state leaves that state — the one the next draw renders — with
a children list equal to the child query of its currently selected top-level
window: navigation is always followed by `select_children` within the same
iteration, so no frame shows children of a stale parent selection. -/
theorem c8_nav_children_fresh (rel : Window → List Window) (st st' : AppState)
    (inp : IterInput) (w : Window)
    (hkey : inp.key = some Key.up ∨ inp.key = some Key.down)
    (hstep : stepIter rel st inp = some (some st'))
    (hsel : st'.windows.selectedItem = some (some w)) :
    st'.children.vec = rel w := by
  rw [stepIter_eq] at hstep
  split at hstep
  next => cases hstep
  next => injection hstep with hstep; cases hstep
  next st1 heq =>
    obtain ⟨stm, hsc⟩ := stepKey_nav_selectChildren hkey heq
    by_cases ht : inp.tick
    · rw [if_pos ht] at hstep
      cases hsc2 : st1.selectChildren rel with
      | none => rw [hsc2] at hstep; cases hstep
      | some st2 =>
        rw [hsc2] at hstep
        simp only [Option.map_some'] at hstep
        injection hstep with hstep
        injection hstep with hstep
        subst hstep
        exact selectChildren_consistent hsc2 w hsel
    · rw [if_neg ht] at hstep
      injection hstep with hstep
      injection hstep with hstep
      subst hstep
      exact selectChildren_consistent hsc w hsel

/-- Witness for C8: a Down key on the initial one-window state yields a
continuation state whose children list is the child query of the selected
window. -/
theorem c8_nav_children_fresh_witness :
    (AppState.mk (StatefulList.mk (some 0) [wA])
      (StatefulList.mk none [wA])).children.vec = relA wA :=
  c8_nav_children_fresh relA (initState [wA])
    (AppState.mk (StatefulList.mk (some 0) [wA]) (StatefulList.mk none [wA]))
    ⟨some Key.down, [], false⟩ wA (Or.inr rfl) (by decide) (by decide)

/-- C10: every completed child re-derivation — `select_children` with a
selected descriptor `w`, as invoked on navigation, manual refresh, and the
periodic tick — replaces the children items with the query result via the
clamp-preserving `update`: the top list is untouched, the children items
become `list_related w`, and the children selection is preserved exactly
(when at most the new length) or clamped to `new_len - 1` (when greater),
never reset to the first item. -/
theorem c10_rederivation (rel : Window → List Window) (st st' : AppState) (w : Window)
    (hsel : st.windows.selectedItem = some (some w))
    (h : st.selectChildren rel = some st') :
    st'.windows = st.windows ∧
    st'.children.vec = rel w ∧
    (st.children.selected = none → st'.children.selected = none) ∧
    (∀ k, st.children.selected = some k → k ≤ (rel w).length →
      st'.children.selected = some k) ∧
    (∀ k, st.children.selected = some k → (rel w).length < k →
      st'.children.selected = some ((rel w).length - 1)) := by
  have hup := selectChildren_children h hsel
  refine ⟨selectChildren_windows h, update_vec hup, ?_, ?_, ?_⟩
  · intro hn; exact update_selected_of_none hup hn
  · intro k hk hle; exact update_selected_keep hup hk hle
  · intro k hk hgt; exact (update_selected_clamp hup hk hgt).1

/-- Witness for C10: held children selection 5 against a new child list of
length 1 is clamped to its last index. -/
theorem c10_rederivation_witness :
    (AppState.mk (StatefulList.mk (some 0) [wA])
      (StatefulList.mk (some 0) [wA])).children.selected =
      some ((relA wA).length - 1) :=
  (c10_rederivation relA
    (AppState.mk (StatefulList.mk (some 0) [wA]) (StatefulList.mk (some 5) [wA]))
    (AppState.mk (StatefulList.mk (some 0) [wA]) (StatefulList.mk (some 0) [wA]))
    wA (by decide) (by decide)).2.2.2.2 5 rfl (by decide)

end ChildWindowsViewer
